import Mathlib

/-!
Verification of the regime pricing system's core numerical pipeline.

Each definition below is a shallow embedding of a function of the repository
(`src/modules/jump_detector.py`, `src/modules/regime_engine.py`,
`src/modules/volatility_engine.py`, `src/modules/drift_engine.py`,
`src/modules/pricing_engine.py`, `src/main.py`).  Machine floats are modelled
by exact rationals (or reals where square roots, exponentials and the normal
CDF are involved); IEEE `NaN` is modelled by `Option.none`; a raised Python
exception is modelled by `Except.error`.  Input series are modelled as
`NaN`-free lists, so `dropna` is the identity.
-/

namespace JumpDetector

/-- Insertion of an element into a sorted list (ascending). -/
def insertSorted (x : ℚ) : List ℚ → List ℚ
  | [] => [x]
  | y :: ys => if x ≤ y then x :: y :: ys else y :: insertSorted x ys

/-- Insertion sort, used to take medians the way pandas does (sort, then
take the middle element, or the average of the two middle elements). -/
def sortQ (l : List ℚ) : List ℚ :=
  l.foldr insertSorted []

/-- The pandas median of a list: middle of the sorted list for odd length,
average of the two middle elements for even length. -/
def median (l : List ℚ) : ℚ :=
  let s := sortQ l
  let n := l.length
  if n % 2 = 1 then s.getD (n / 2) 0
  else (s.getD (n / 2 - 1) 0 + s.getD (n / 2) 0) / 2

/-- The trailing window of width `w` ending at index `i` (inclusive), as used
by `pandas.Series.rolling(window=w)`: the last `min (i+1) w` elements up to
position `i`. -/
def windowAt (xs : List ℚ) (i w : ℕ) : List ℚ :=
  (xs.take (i + 1)).drop (i + 1 - w)

/-- Same trailing window over a series that may contain `NaN` entries. -/
def windowAtO (xs : List (Option ℚ)) (i w : ℕ) : List (Option ℚ) :=
  (xs.take (i + 1)).drop (i + 1 - w)

/-- `returns.rolling(window=w, min_periods=5).mean()` at index `i`:
`NaN` (`none`) until five observations are available. -/
def rollingMean (w : ℕ) (xs : List ℚ) (i : ℕ) : Option ℚ :=
  let s := windowAt xs i w
  if s.length < 5 then none else some (s.sum / s.length)

/-- `returns.rolling(window=w, min_periods=5).median()` at index `i`. -/
def rollingMedian (w : ℕ) (xs : List ℚ) (i : ℕ) : Option ℚ :=
  let s := windowAt xs i w
  if s.length < 5 then none else some (median s)

/-- `returns.rolling(window=w, min_periods=5).std()` at index `i`, carried as
the sample variance (ddof = 1); the jump test compares squares so that the
embedding stays inside the rationals. -/
def rollingSampleVar (w : ℕ) (xs : List ℚ) (i : ℕ) : Option ℚ :=
  let s := windowAt xs i w
  if s.length < 5 then none
  else
    let m := s.sum / s.length
    some (((s.map (fun x => (x - m) ^ 2)).sum) / (s.length - 1))

/-- The pointwise deviation series `(returns_clean - rolling_median).abs()`;
entries where the rolling median is `NaN` are `NaN`. -/
def devSeries (w : ℕ) (xs : List ℚ) : List (Option ℚ) :=
  (List.range xs.length).map fun j =>
    (rollingMedian w xs j).map (fun m => |xs.getD j 0 - m|)

/-- Rolling median with `min_periods=5` over a series containing `NaN`s:
pandas counts only the non-`NaN` entries of the window. -/
def rollingMedianO (w : ℕ) (ys : List (Option ℚ)) (i : ℕ) : Option ℚ :=
  let s := (windowAtO ys i w).filterMap id
  if s.length < 5 then none else some (median s)

/-- `rolling_mad` at index `i`: the rolling median (window `w`,
`min_periods=5`) of the deviation series. -/
def rollingMad (w : ℕ) (xs : List ℚ) (i : ℕ) : Option ℚ :=
  rollingMedianO w (devSeries w xs) i

/-- `rolling_std = rolling_mad * 1.4826` in the robust branch of
`detect_jumps`. -/
def robustSpread (w : ℕ) (xs : List ℚ) (i : ℕ) : Option ℚ :=
  (rollingMad w xs i).map (fun m => m * (14826 / 10000))

/-- The jump decision of `detect_jumps` at one index:
`is_jump = (z_scores.abs() > threshold).fillna(False)` where
`z = (returns - rolling_mean) / rolling_std`.  Float semantics of the
division: `0/0` is `NaN` (so `fillna` gives `False`), while `x/0` with
`x ≠ 0` is `±inf`, whose absolute value exceeds every finite threshold.
In the non-robust branch the spread is the square root of the rolling
sample variance, so for a nonnegative threshold `|num|/sqrt(var) > t`
holds iff `num^2 > t^2 * var`, and for a negative threshold the
comparison `|z| > t` is always true. -/
def isJumpAt (threshold : ℚ) (w : ℕ) (useRobust : Bool) (xs : List ℚ)
    (i : ℕ) : Bool :=
  match rollingMean w xs i with
  | none => false
  | some mu =>
    let num := xs.getD i 0 - mu
    if useRobust then
      match robustSpread w xs i with
      | none => false
      | some s =>
        if s = 0 then decide (num ≠ 0) else decide (|num| / s > threshold)
    else
      match rollingSampleVar w xs i with
      | none => false
      | some v =>
        if v = 0 then decide (num ≠ 0)
        else decide (threshold < 0) || decide (num ^ 2 > threshold ^ 2 * v)

/-- The boolean jump mask of `detect_jumps` over the whole series. -/
def isJumpList (threshold : ℚ) (w : ℕ) (useRobust : Bool)
    (xs : List ℚ) : List Bool :=
  (List.range xs.length).map (isJumpAt threshold w useRobust xs)

/-- `JumpDetector.detect_jumps`: with fewer than `min_observations` points it
returns all-`False` flags, an all-zero jump series and the returns unchanged;
otherwise it computes the jump mask from the rolling z-scores and splits the
returns into `jump_returns` (original value on jump days, `0` elsewhere) and
`diffusion_returns` (`0` on jump days, original value elsewhere). -/
def detectJumps (threshold : ℚ) (window minObservations : ℕ)
    (useRobust : Bool) (returns : List ℚ) :
    List Bool × List ℚ × List ℚ :=
  if returns.length < minObservations then
    (List.replicate returns.length false,
     List.replicate returns.length (0 : ℚ),
     returns)
  else
    let isJump := isJumpList threshold window useRobust returns
    (isJump,
     List.zipWith (fun b x => if b then x else 0) isJump returns,
     List.zipWith (fun b x => if b then (0 : ℚ) else x) isJump returns)

/-- `JumpDetector.estimate_jump_parameters`: filters to the non-zero jump
returns; with no jumps it returns `(0, 0, 0)`; otherwise the mean jump size,
the sample standard deviation of the jump sizes (`NaN`, i.e. `none`, for a
single jump, since pandas `std` uses ddof = 1) and the jump frequency. -/
noncomputable def estimateJumpParameters (jumpReturns : List ℚ) :
    ℚ × Option ℝ × ℚ :=
  let jumpsOnly := jumpReturns.filter (· ≠ 0)
  if jumpsOnly.length = 0 then (0, some 0, 0)
  else
    let n := jumpsOnly.length
    let muJ := jumpsOnly.sum / n
    let sigmaJ : Option ℝ :=
      if n ≤ 1 then none
      else some (Real.sqrt
        (((jumpsOnly.map (fun x => (x - muJ) ^ 2)).sum / (n - 1) : ℚ) : ℝ))
    let lambdaJ : ℚ := (n : ℚ) / (jumpReturns.length : ℚ)
    (muJ, sigmaJ, lambdaJ)

lemma zipWith_add_replicate_zero (xs : List ℚ) :
    List.zipWith (· + ·) (List.replicate xs.length (0 : ℚ)) xs = xs := by
  induction xs with
  | nil => rfl
  | cons x xs ih => simp [List.replicate_succ, ih]

lemma zipWith_split_add (bs : List Bool) (xs : List ℚ)
    (h : bs.length = xs.length) :
    List.zipWith (· + ·)
      (List.zipWith (fun b x => if b then x else 0) bs xs)
      (List.zipWith (fun b x => if b then (0 : ℚ) else x) bs xs) = xs := by
  induction bs generalizing xs with
  | nil =>
    cases xs with
    | nil => rfl
    | cons x xs => simp at h
  | cons b bs ih =>
    cases xs with
    | nil => simp at h
    | cons x xs =>
      simp only [List.zipWith_cons_cons, List.cons.injEq]
      refine ⟨?_, ih xs (by simpa using h)⟩
      cases b <;> simp

lemma length_isJumpList (threshold : ℚ) (w : ℕ) (useRobust : Bool)
    (xs : List ℚ) : (isJumpList threshold w useRobust xs).length = xs.length := by
  simp [isJumpList]

end JumpDetector

lemma JumpDetector.getD_zipWith_split (bs : List Bool) (xs : List ℚ)
    (h : bs.length = xs.length) (i : ℕ) :
    ((List.zipWith (fun b x => if b then x else 0) bs xs).getD i 0 =
      if bs.getD i false then xs.getD i 0 else 0)
  ∧ ((List.zipWith (fun b x => if b then (0 : ℚ) else x) bs xs).getD i 0 =
      if bs.getD i false then 0 else xs.getD i 0) := by
  induction bs generalizing xs i with
  | nil =>
    cases xs with
    | nil => simp
    | cons x xs => simp at h
  | cons b bs ih =>
    cases xs with
    | nil => simp at h
    | cons x xs =>
      cases i with
      | zero => simp
      | succ j =>
        simp only [List.zipWith_cons_cons, List.getD_cons_succ]
        exact ih xs (by simpa using h) j

/-- Claim C1: for every parameterization and every input return series, the
`jump_returns` and `diffusion_returns` series produced by
`JumpDetector.detect_jumps` sum pointwise back to the original returns, and
each return is routed entirely to exactly one of the two series: the jump
series carries the original value exactly on flagged indices (0 elsewhere)
and the diffusion series exactly on unflagged ones. -/
theorem claim_C1 (threshold : ℚ) (window minObservations : ℕ)
    (useRobust : Bool) (returns : List ℚ) :
    List.zipWith (· + ·)
      (JumpDetector.detectJumps threshold window minObservations useRobust returns).2.1
      (JumpDetector.detectJumps threshold window minObservations useRobust returns).2.2
      = returns
  ∧ (∀ i, (JumpDetector.detectJumps threshold window minObservations
        useRobust returns).2.1.getD i 0 =
      if (JumpDetector.detectJumps threshold window minObservations useRobust
          returns).1.getD i false then returns.getD i 0 else 0)
  ∧ (∀ i, (JumpDetector.detectJumps threshold window minObservations
        useRobust returns).2.2.getD i 0 =
      if (JumpDetector.detectJumps threshold window minObservations useRobust
          returns).1.getD i false then 0 else returns.getD i 0) := by
  unfold JumpDetector.detectJumps
  split
  · refine ⟨JumpDetector.zipWith_add_replicate_zero returns, ?_, ?_⟩
    · intro i
      by_cases hi : i < returns.length <;>
        simp [List.getD_eq_getElem?_getD, List.getElem?_replicate, hi]
    · intro i
      by_cases hi : i < returns.length <;>
        simp [List.getD_eq_getElem?_getD, List.getElem?_replicate, hi]
  · refine ⟨JumpDetector.zipWith_split_add _ _
      (JumpDetector.length_isJumpList _ _ _ _), ?_, ?_⟩
    · intro i
      exact (JumpDetector.getD_zipWith_split _ _
        (JumpDetector.length_isJumpList _ _ _ _) i).1
    · intro i
      exact (JumpDetector.getD_zipWith_split _ _
        (JumpDetector.length_isJumpList _ _ _ _) i).2


namespace JumpDetector

lemma isJumpList_getD (threshold : ℚ) (w : ℕ) (useRobust : Bool)
    (xs : List ℚ) (i : ℕ) (hi : i < xs.length) :
    (isJumpList threshold w useRobust xs).getD i false =
      isJumpAt threshold w useRobust xs i := by
  simp [isJumpList, List.getD_eq_getElem?_getD, List.getElem?_map,
    List.getElem?_range, hi]

lemma detectJumps_fst (threshold : ℚ) (w mo : ℕ) (useRobust : Bool)
    (xs : List ℚ) (h : mo ≤ xs.length) :
    (detectJumps threshold w mo useRobust xs).1 =
      isJumpList threshold w useRobust xs := by
  unfold detectJumps
  rw [if_neg (by omega)]

lemma isJumpAt_robust (threshold : ℚ) (w : ℕ) (xs : List ℚ) (i : ℕ) :
    isJumpAt threshold w true xs i =
      match rollingMean w xs i, robustSpread w xs i with
      | some mu, some s =>
          if s = 0 then decide (xs.getD i 0 - mu ≠ 0)
          else decide (|xs.getD i 0 - mu| / s > threshold)
      | _, _ => false := by
  unfold isJumpAt
  cases rollingMean w xs i <;> cases robustSpread w xs i <;> simp

end JumpDetector

/-- Claim C7 (corrected): in `detect_jumps` (robust branch), a point whose
standardized residual is `NaN` — rolling mean or rolling spread undefined, or
zero spread together with a zero numerator — is a non-jump; but a zero
rolling spread with a nonzero numerator produces an infinite standardized
residual, which exceeds every finite threshold, so such a point IS flagged
as a jump. -/
theorem claim_C7 (threshold : ℚ) (w mo : ℕ) (r : List ℚ) (i : ℕ)
    (hmo : mo ≤ r.length) (hi : i < r.length) :
    ((JumpDetector.rollingMean w r i = none ∨
        JumpDetector.robustSpread w r i = none) →
      (JumpDetector.detectJumps threshold w mo true r).1.getD i false = false)
  ∧ (∀ mu, JumpDetector.rollingMean w r i = some mu →
      JumpDetector.robustSpread w r i = some 0 →
      r.getD i 0 - mu = 0 →
      (JumpDetector.detectJumps threshold w mo true r).1.getD i false = false)
  ∧ (∀ mu, JumpDetector.rollingMean w r i = some mu →
      JumpDetector.robustSpread w r i = some 0 →
      r.getD i 0 - mu ≠ 0 →
      (JumpDetector.detectJumps threshold w mo true r).1.getD i false = true) := by
  rw [JumpDetector.detectJumps_fst threshold w mo true r hmo,
    JumpDetector.isJumpList_getD threshold w true r i hi,
    JumpDetector.isJumpAt_robust]
  refine ⟨?_, ?_, ?_⟩
  · rintro (hm | hs)
    · rw [hm]
    · rw [hs]
      cases JumpDetector.rollingMean w r i <;> rfl
  · intro mu hm hs hnum
    rw [hm, hs]
    simp only [eq_self_iff_true, if_true, decide_eq_false_iff_not, ne_eq,
      not_not]
    exact hnum
  · intro mu hm hs hnum
    rw [hm, hs]
    simp only [eq_self_iff_true, if_true]
    exact decide_eq_true hnum

/-- Claim C7, counterexample to the claim as stated: on the return series of
eight zeros followed by a single 1 (threshold 3, window 20,
min_observations 9), the rolling spread at the last index is exactly zero —
the standardized residual is undefined as a real number — yet the point IS
flagged as a jump, because the float z-score `(1 - 1/9)/0` is `+inf`. -/
theorem claim_C7_counterexample :
    JumpDetector.robustSpread 20 ([0, 0, 0, 0, 0, 0, 0, 0, 1] : List ℚ) 8 =
      some 0
  ∧ (JumpDetector.detectJumps 3 20 9 true
      [0, 0, 0, 0, 0, 0, 0, 0, 1]).1.getD 8 false = true := by
  have hs : JumpDetector.robustSpread 20
      ([0, 0, 0, 0, 0, 0, 0, 0, 1] : List ℚ) 8 = some 0 := by
    norm_num [JumpDetector.robustSpread, JumpDetector.rollingMad,
      JumpDetector.rollingMedianO, JumpDetector.windowAtO,
      JumpDetector.devSeries, JumpDetector.rollingMedian,
      JumpDetector.windowAt, JumpDetector.median, JumpDetector.sortQ,
      JumpDetector.insertSorted, List.range_succ, List.filterMap_cons,
      List.filterMap_nil, id_eq]
  have hm : JumpDetector.rollingMean 20
      ([0, 0, 0, 0, 0, 0, 0, 0, 1] : List ℚ) 8 = some (1 / 9) := by
    norm_num [JumpDetector.rollingMean, JumpDetector.windowAt]
  refine ⟨hs, ?_⟩
  rw [JumpDetector.detectJumps_fst 3 20 9 true _ (by norm_num),
    JumpDetector.isJumpList_getD 3 20 true _ 8 (by norm_num),
    JumpDetector.isJumpAt_robust, hm, hs]
  simp only [eq_self_iff_true, if_true, decide_eq_true_eq]
  norm_num

/-- Claim C7, witness: on a constant series of nine equal returns the rolling
spread and the z-score numerator are both zero (a `0/0 = NaN` residual), and
the point is classified as a non-jump. -/
theorem claim_C7_witness :
    (JumpDetector.detectJumps 3 20 9 true
      [1, 1, 1, 1, 1, 1, 1, 1, 1]).1.getD 8 false = false :=
  (claim_C7 3 20 9 [1, 1, 1, 1, 1, 1, 1, 1, 1] 8 (by norm_num)
      (by norm_num)).2.1 1
    (by norm_num [JumpDetector.rollingMean, JumpDetector.windowAt])
    (by norm_num [JumpDetector.robustSpread, JumpDetector.rollingMad,
      JumpDetector.rollingMedianO, JumpDetector.windowAtO,
      JumpDetector.devSeries, JumpDetector.rollingMedian,
      JumpDetector.windowAt, JumpDetector.median, JumpDetector.sortQ,
      JumpDetector.insertSorted, List.range_succ, List.filterMap_cons,
      List.filterMap_nil, id_eq])
    (by norm_num)

/-- Claim C10: a jump-return series with exactly one non-zero entry `v`
yields `mu_j = v` and `lambda = 1/n`, but `sigma_j = NaN` (modelled `none`),
the sample standard deviation of a single observation — not `0` and not any
finite number. -/
theorem claim_C10 (l : List ℚ) (v : ℚ) (h : l.filter (· ≠ 0) = [v]) :
    JumpDetector.estimateJumpParameters l = (v, none, 1 / (l.length : ℚ)) := by
  unfold JumpDetector.estimateJumpParameters
  rw [h]
  norm_num

/-- Claim C10, witness at the concrete series `[0, 5, 0]`. -/
theorem claim_C10_witness :
    JumpDetector.estimateJumpParameters [0, 5, 0] =
      (5, none, 1 / ((([0, 5, 0] : List ℚ).length : ℚ))) :=
  claim_C10 [0, 5, 0] 5 (by norm_num)

namespace RegimeEngine

/-- pandas percentile rank (`rank(pct=True)`, average method) of the LAST
element of a window: the average rank of ties divided by the window length.
For the last element `x` of window `s` this is
`(#(y < x) + (#(y = x) + 1) / 2) / #s`. -/
def rankPctLast (s : List ℚ) (x : ℚ) : ℚ :=
  let cLt := (s.filter (fun y => y < x)).length
  let cEq := (s.filter (fun y => y = x)).length
  ((cLt : ℚ) + ((cEq : ℚ) + 1) / 2) / (s.length : ℚ)

/-- `volatility.rolling(vol_window).apply(lambda x: rank(pct=True).iloc[-1])`
at index `i`; `min_periods` defaults to the window size, so the value is
`NaN` until `vol_window` observations are available. -/
def volRankAt (volWindow : ℕ) (volatility : List ℚ) (i : ℕ) : Option ℚ :=
  let s := JumpDetector.windowAt volatility i volWindow
  if s.length < volWindow then none
  else some (rankPctLast s (volatility.getD i 0))

/-- `is_jump.rolling(jump_window).mean()` at index `i`: the fraction of jump
days in the trailing window, `NaN` until `jump_window` observations. -/
def jumpRateAt (jumpWindow : ℕ) (isJump : List Bool) (i : ℕ) : Option ℚ :=
  let s := (isJump.take (i + 1)).drop (i + 1 - jumpWindow)
  if s.length < jumpWindow then none
  else some (((s.filter id).length : ℚ) / (jumpWindow : ℚ))

/-- One row of `RegimeEngine.detect_regimes`, as the triple
`(bull, sideways, crisis)`: non-finite rolling statistics give pure
sideways; crisis (first match) when the volatility rank exceeds
`high_vol_pct` or the jump rate exceeds `jump_rate_threshold`; bull when the
rank is below `low_vol_pct` and the jump rate below half the threshold;
otherwise pure sideways. -/
def regimeRowAt (volWindow jumpWindow : ℕ) (highVolPct lowVolPct
    jumpRateThreshold : ℚ) (volatility : List ℚ) (isJump : List Bool)
    (i : ℕ) : ℚ × ℚ × ℚ :=
  match volRankAt volWindow volatility i, jumpRateAt jumpWindow isJump i with
  | some v, some j =>
    if v > highVolPct ∨ j > jumpRateThreshold then (0, 3 / 10, 7 / 10)
    else if v < lowVolPct ∧ j < jumpRateThreshold / 2 then (7 / 10, 3 / 10, 0)
    else (0, 1, 0)
  | _, _ => (0, 1, 0)

/-- `RegimeEngine.detect_regimes`: one `(bull, sideways, crisis)` row per
entry of the volatility series. -/
def detectRegimes (volWindow jumpWindow : ℕ) (highVolPct lowVolPct
    jumpRateThreshold : ℚ) (volatility : List ℚ) (isJump : List Bool) :
    List (ℚ × ℚ × ℚ) :=
  (List.range volatility.length).map
    (regimeRowAt volWindow jumpWindow highVolPct lowVolPct jumpRateThreshold
      volatility isJump)

lemma regimeRowAt_cases (volWindow jumpWindow : ℕ) (highVolPct lowVolPct
    jumpRateThreshold : ℚ) (volatility : List ℚ) (isJump : List Bool)
    (i : ℕ) :
    regimeRowAt volWindow jumpWindow highVolPct lowVolPct jumpRateThreshold
        volatility isJump i = (0, 1, 0)
    ∨ regimeRowAt volWindow jumpWindow highVolPct lowVolPct jumpRateThreshold
        volatility isJump i = (7 / 10, 3 / 10, 0)
    ∨ regimeRowAt volWindow jumpWindow highVolPct lowVolPct jumpRateThreshold
        volatility isJump i = (0, 3 / 10, 7 / 10) := by
  unfold regimeRowAt
  cases volRankAt volWindow volatility i with
  | none => cases jumpRateAt jumpWindow isJump i <;> simp
  | some v =>
    cases jumpRateAt jumpWindow isJump i with
    | none => simp
    | some j =>
      by_cases h1 : v > highVolPct ∨ j > jumpRateThreshold
      · simp [h1]
      · by_cases h2 : v < lowVolPct ∧ j < jumpRateThreshold / 2 <;>
          simp [h1, h2]

end RegimeEngine

/-- Claim C2: every row of the regime-probability table returned by
`RegimeEngine.detect_regimes` (for aligned volatility and jump series) is one
of the three triples `(0, 1, 0)`, `(0, 0.3, 0.7)`, `(0.7, 0.3, 0)` of
non-negative entries, and its entries sum exactly to 1 (hence within 1e-9). -/
theorem claim_C2 (volWindow jumpWindow : ℕ) (highVolPct lowVolPct
    jumpRateThreshold : ℚ) (volatility : List ℚ) (isJump : List Bool)
    (i : ℕ) (_hlen : isJump.length = volatility.length)
    (hi : i < volatility.length) :
    ((RegimeEngine.detectRegimes volWindow jumpWindow highVolPct lowVolPct
        jumpRateThreshold volatility isJump).getD i (0, 1, 0) = (0, 1, 0)
    ∨ (RegimeEngine.detectRegimes volWindow jumpWindow highVolPct lowVolPct
        jumpRateThreshold volatility isJump).getD i (0, 1, 0) =
        (7 / 10, 3 / 10, 0)
    ∨ (RegimeEngine.detectRegimes volWindow jumpWindow highVolPct lowVolPct
        jumpRateThreshold volatility isJump).getD i (0, 1, 0) =
        (0, 3 / 10, 7 / 10))
  ∧ ((RegimeEngine.detectRegimes volWindow jumpWindow highVolPct lowVolPct
        jumpRateThreshold volatility isJump).getD i (0, 1, 0)).1 +
      ((RegimeEngine.detectRegimes volWindow jumpWindow highVolPct lowVolPct
        jumpRateThreshold volatility isJump).getD i (0, 1, 0)).2.1 +
      ((RegimeEngine.detectRegimes volWindow jumpWindow highVolPct lowVolPct
        jumpRateThreshold volatility isJump).getD i (0, 1, 0)).2.2 = 1
  ∧ 0 ≤ ((RegimeEngine.detectRegimes volWindow jumpWindow highVolPct lowVolPct
        jumpRateThreshold volatility isJump).getD i (0, 1, 0)).1
  ∧ 0 ≤ ((RegimeEngine.detectRegimes volWindow jumpWindow highVolPct lowVolPct
        jumpRateThreshold volatility isJump).getD i (0, 1, 0)).2.1
  ∧ 0 ≤ ((RegimeEngine.detectRegimes volWindow jumpWindow highVolPct lowVolPct
        jumpRateThreshold volatility isJump).getD i (0, 1, 0)).2.2 := by
  have hrow : (RegimeEngine.detectRegimes volWindow jumpWindow highVolPct
      lowVolPct jumpRateThreshold volatility isJump).getD i (0, 1, 0) =
      RegimeEngine.regimeRowAt volWindow jumpWindow highVolPct lowVolPct
        jumpRateThreshold volatility isJump i := by
    simp [RegimeEngine.detectRegimes, List.getD_eq_getElem?_getD,
      List.getElem?_map, List.getElem?_range, hi]
  rw [hrow]
  rcases RegimeEngine.regimeRowAt_cases volWindow jumpWindow highVolPct
      lowVolPct jumpRateThreshold volatility isJump i with h | h | h <;>
    rw [h] <;> norm_num

/-- Claim C2, witness: a one-point volatility series with too little history
for the rolling statistics yields the pure-sideways row `(0, 1, 0)`. -/
theorem claim_C2_witness :
    ((RegimeEngine.detectRegimes 60 60 (4 / 5) (3 / 10) (1 / 20) [1]
        [false]).getD 0 (0, 1, 0) = (0, 1, 0)
    ∨ (RegimeEngine.detectRegimes 60 60 (4 / 5) (3 / 10) (1 / 20) [1]
        [false]).getD 0 (0, 1, 0) = (7 / 10, 3 / 10, 0)
    ∨ (RegimeEngine.detectRegimes 60 60 (4 / 5) (3 / 10) (1 / 20) [1]
        [false]).getD 0 (0, 1, 0) = (0, 3 / 10, 7 / 10))
  ∧ ((RegimeEngine.detectRegimes 60 60 (4 / 5) (3 / 10) (1 / 20) [1]
        [false]).getD 0 (0, 1, 0)).1 +
      ((RegimeEngine.detectRegimes 60 60 (4 / 5) (3 / 10) (1 / 20) [1]
        [false]).getD 0 (0, 1, 0)).2.1 +
      ((RegimeEngine.detectRegimes 60 60 (4 / 5) (3 / 10) (1 / 20) [1]
        [false]).getD 0 (0, 1, 0)).2.2 = 1
  ∧ 0 ≤ ((RegimeEngine.detectRegimes 60 60 (4 / 5) (3 / 10) (1 / 20) [1]
        [false]).getD 0 (0, 1, 0)).1
  ∧ 0 ≤ ((RegimeEngine.detectRegimes 60 60 (4 / 5) (3 / 10) (1 / 20) [1]
        [false]).getD 0 (0, 1, 0)).2.1
  ∧ 0 ≤ ((RegimeEngine.detectRegimes 60 60 (4 / 5) (3 / 10) (1 / 20) [1]
        [false]).getD 0 (0, 1, 0)).2.2 :=
  claim_C2 60 60 (4 / 5) (3 / 10) (1 / 20) [1] [false] 0 (by norm_num)
    (by norm_num)

namespace VolatilityEngine

/-- The raw `ewm(alpha=1-lambda, adjust=False).mean()` recursion over a
series (applied to squared returns): `v_0 = x_0`,
`v_t = lambda * v_{t-1} + (1 - lambda) * x_t`. -/
def ewmaRaw (lam : ℚ) : List ℚ → List ℚ
  | [] => []
  | x :: xs => List.scanl (fun acc y => lam * acc + (1 - lam) * y) x xs

/-- `VolatilityEngine.ewma_volatility` up to the final square root: the EWMA
of the squared returns, masked to `NaN` (`none`) until `min_periods`
observations, and floored (`clip(lower=min_variance)`) where defined —
pandas `clip` leaves `NaN` entries `NaN`. -/
def ewmaVariance (returns : List ℚ) (lam minVariance : ℚ)
    (minPeriods : ℕ := 20) : List (Option ℚ) :=
  let raw := ewmaRaw lam (returns.map (fun x => x ^ 2))
  (List.range raw.length).map fun j =>
    if j + 1 < minPeriods then none
    else some (max minVariance (raw.getD j 0))

/-- `VolatilityEngine.ewma_volatility`: the square root of the floored EWMA
variance series. -/
noncomputable def ewmaVolatility (returns : List ℚ) (lam minVariance : ℚ)
    (minPeriods : ℕ := 20) : List (Option ℝ) :=
  (ewmaVariance returns lam minVariance minPeriods).map
    (Option.map (fun q : ℚ => Real.sqrt (q : ℝ)))

/-- `VolatilityEngine.garch_volatility`: the external `arch` fitting routine
is modelled as an `Except`-valued input (per the spec it is a black box that
either yields a conditional-volatility series or fails).  On success the
fitted series is scaled back from percentage and floored at
`sqrt(min_variance)`; on any fitting exception the function falls back to
the EWMA estimator with decay 0.90 (and its default `min_periods = 20`). -/
noncomputable def garchVolatility (fit : Except String (List ℝ))
    (returns : List ℚ) (minVariance : ℚ) : List (Option ℝ) :=
  match fit with
  | .error _ => ewmaVolatility returns (9 / 10) minVariance
  | .ok condVol =>
      condVol.map (fun v => some (max (Real.sqrt (minVariance : ℝ)) (v / 100)))

/-- `VolatilityEngine.estimate_regime_volatility`: dispatch on the regime
label; an unrecognized label raises `ValueError` (modelled `Except.error`). -/
noncomputable def estimateRegimeVolatility (returns : List ℚ)
    (regime : String) (fit : Except String (List ℝ))
    (bullLam crisisLam minVariance : ℚ) :
    Except String (List (Option ℝ)) :=
  if regime = "bull" then
    .ok (ewmaVolatility returns bullLam minVariance)
  else if regime = "sideways" then
    .ok (garchVolatility fit returns minVariance)
  else if regime = "crisis" then
    .ok (ewmaVolatility returns crisisLam minVariance)
  else
    .error ("Unknown regime: " ++ regime)

/-- `VolatilityEngine.compute_effective_volatility`: the probability-weighted
blend of the three regime volatility series (bull and crisis are the two
EWMA estimators, sideways the GARCH estimator — the literal-label dispatch
of `estimate_regime_volatility` resolved).  A pandas `NaN` in any component,
or a missing probability row, makes the blended entry `NaN`. -/
noncomputable def computeEffectiveVolatility (returns : List ℚ)
    (regimeProbs : List (ℚ × ℚ × ℚ)) (fit : Except String (List ℝ))
    (bullLam crisisLam minVariance : ℚ) : List (Option ℝ) :=
  let volBull := ewmaVolatility returns bullLam minVariance
  let volSideways := garchVolatility fit returns minVariance
  let volCrisis := ewmaVolatility returns crisisLam minVariance
  (List.range returns.length).map fun i =>
    match volBull.getD i none, volSideways.getD i none,
        volCrisis.getD i none, regimeProbs[i]? with
    | some vb, some vs, some vc, some (pb, ps, pc) =>
        some (vb * (pb : ℝ) + vs * (ps : ℝ) + vc * (pc : ℝ))
    | _, _, _, _ => none

lemma length_ewmaRaw (lam : ℚ) (xs : List ℚ) :
    (ewmaRaw lam xs).length = xs.length := by
  cases xs with
  | nil => rfl
  | cons x xs => simp [ewmaRaw, List.length_scanl]

lemma getD_map_option {α β : Type} (f : α → β) (l : List (Option α)) (i : ℕ) :
    (l.map (Option.map f)).getD i none = (l.getD i none).map f := by
  simp only [List.getD_eq_getElem?_getD, List.getElem?_map]
  cases l[i]? with
  | none => rfl
  | some a => rfl

lemma ewmaVariance_getD_some (returns : List ℚ) (lam minVariance : ℚ)
    (minPeriods i : ℕ) (q : ℚ)
    (h : (ewmaVariance returns lam minVariance minPeriods).getD i none =
      some q) : minVariance ≤ q := by
  unfold ewmaVariance at h
  by_cases hi : i < (ewmaRaw lam (returns.map (fun x => x ^ 2))).length
  · simp only [List.getD_eq_getElem?_getD, List.getElem?_map,
      List.getElem?_range hi, Option.map_some', Option.getD_some] at h
    split at h
    · exact absurd h (by simp)
    · rw [Option.some.injEq] at h
      rw [← h]
      exact le_max_left _ _
  · have hnone : (List.range
        (ewmaRaw lam (returns.map (fun x => x ^ 2))).length)[i]? = none :=
      List.getElem?_eq_none (by simpa using not_lt.1 hi)
    simp only [List.getD_eq_getElem?_getD, List.getElem?_map, hnone] at h
    exact absurd h (by simp)

lemma ewmaVolatility_floor (returns : List ℚ) (lam minVariance : ℚ)
    (minPeriods i : ℕ) (x : ℝ)
    (h : (ewmaVolatility returns lam minVariance minPeriods).getD i none =
      some x) :
    Real.sqrt (minVariance : ℝ) ≤ x ∧ (0 < minVariance → 0 < x) := by
  unfold ewmaVolatility at h
  rw [getD_map_option] at h
  rcases hv : (ewmaVariance returns lam minVariance minPeriods).getD i none
    with _ | q
  · rw [hv] at h; simp at h
  · rw [hv] at h
    simp only [Option.map_some', Option.some.injEq] at h
    have hq := ewmaVariance_getD_some returns lam minVariance minPeriods i q hv
    subst h
    constructor
    · exact Real.sqrt_le_sqrt (by exact_mod_cast hq)
    · intro hmv
      apply Real.sqrt_pos.2
      have : (minVariance : ℝ) ≤ (q : ℝ) := by exact_mod_cast hq
      have : (0 : ℝ) < (minVariance : ℝ) := by exact_mod_cast hmv
      linarith

lemma garchVolatility_floor (fit : Except String (List ℝ))
    (returns : List ℚ) (minVariance : ℚ) (i : ℕ) (x : ℝ)
    (h : (garchVolatility fit returns minVariance).getD i none = some x) :
    Real.sqrt (minVariance : ℝ) ≤ x := by
  cases fit with
  | error e =>
      exact (ewmaVolatility_floor returns (9 / 10) minVariance 20 i x h).1
  | ok condVol =>
      unfold garchVolatility at h
      simp only [List.getD_eq_getElem?_getD, List.getElem?_map] at h
      cases hc : condVol[i]? with
      | none => rw [hc] at h; simp at h
      | some v =>
          rw [hc] at h
          simp only [Option.map_some', Option.getD_some,
            Option.some.injEq] at h
          rw [← h]
          exact le_max_left _ _

end VolatilityEngine

/-- Claim C3 (corrected): every DEFINED entry of the volatility series
(`ewma_volatility`, `garch_volatility` with any fitting outcome, and the
regime-weighted blend `compute_effective_volatility` under a valid
probability row) is at least `sqrt(min_variance)` and strictly positive when
`min_variance > 0`; but an entry of `ewma_volatility` at index `i` of the
input is `NaN` exactly when fewer than `min_periods` observations
(default 20) are available, so the returned series is NOT NaN-free on all
covered indices. -/
theorem claim_C3 (returns : List ℚ) (lam minVariance : ℚ)
    (minPeriods i : ℕ) :
    (∀ q, (VolatilityEngine.ewmaVariance returns lam minVariance
          minPeriods).getD i none = some q →
        minVariance ≤ q
      ∧ (VolatilityEngine.ewmaVolatility returns lam minVariance
          minPeriods).getD i none = some (Real.sqrt (q : ℝ))
      ∧ Real.sqrt ((minVariance : ℚ) : ℝ) ≤ Real.sqrt (q : ℝ)
      ∧ (0 < minVariance → 0 < Real.sqrt (q : ℝ)))
  ∧ (i < returns.length →
      ((VolatilityEngine.ewmaVolatility returns lam minVariance
          minPeriods).getD i none = none ↔ i + 1 < minPeriods))
  ∧ (∀ fit x, (VolatilityEngine.garchVolatility fit returns
          minVariance).getD i none = some x →
      Real.sqrt ((minVariance : ℚ) : ℝ) ≤ x)
  ∧ (∀ fit (probs : List (ℚ × ℚ × ℚ)) bullLam crisisLam pb ps pc x,
      probs[i]? = some (pb, ps, pc) →
      0 ≤ pb → 0 ≤ ps → 0 ≤ pc → pb + ps + pc = 1 →
      (VolatilityEngine.computeEffectiveVolatility returns probs fit bullLam
          crisisLam minVariance).getD i none = some x →
      Real.sqrt ((minVariance : ℚ) : ℝ) ≤ x) := by
  refine ⟨?_, ?_, ?_, ?_⟩
  · intro q hq
    have h1 := VolatilityEngine.ewmaVariance_getD_some returns lam minVariance
      minPeriods i q hq
    have h2 : (VolatilityEngine.ewmaVolatility returns lam minVariance
        minPeriods).getD i none = some (Real.sqrt (q : ℝ)) := by
      unfold VolatilityEngine.ewmaVolatility
      rw [VolatilityEngine.getD_map_option, hq, Option.map_some']
    refine ⟨h1, h2, Real.sqrt_le_sqrt (by exact_mod_cast h1), fun hmv => ?_⟩
    apply Real.sqrt_pos.2
    have hc1 : (minVariance : ℝ) ≤ (q : ℝ) := by exact_mod_cast h1
    have hc2 : (0 : ℝ) < (minVariance : ℝ) := by exact_mod_cast hmv
    linarith
  · intro hi
    have hlen : i < (VolatilityEngine.ewmaRaw lam
        (returns.map (fun x => x ^ 2))).length := by
      rwa [VolatilityEngine.length_ewmaRaw, List.length_map]
    unfold VolatilityEngine.ewmaVolatility VolatilityEngine.ewmaVariance
    simp only [List.getD_eq_getElem?_getD, List.getElem?_map,
      List.getElem?_range hlen, Option.map_some', Option.getD_some]
    split
    · rename_i h
      simp [h]
    · rename_i h
      simp [h]
  · intro fit x hx
    exact VolatilityEngine.garchVolatility_floor fit returns minVariance i x hx
  · intro fit probs bullLam crisisLam pb ps pc x hp hpb hps hpc hsum hx
    unfold VolatilityEngine.computeEffectiveVolatility at hx
    by_cases hi : i < returns.length
    · simp only [List.getD_eq_getElem?_getD, List.getElem?_map,
        List.getElem?_range hi, Option.map_some', Option.getD_some] at hx
      rcases hb : (VolatilityEngine.ewmaVolatility returns bullLam
            minVariance)[i]?.getD none with _ | vb <;>
        rcases hs : (VolatilityEngine.garchVolatility fit returns
            minVariance)[i]?.getD none with _ | vs <;>
          rcases hc : (VolatilityEngine.ewmaVolatility returns crisisLam
              minVariance)[i]?.getD none with _ | vc <;>
            rw [hb, hs, hc, hp] at hx
      all_goals simp at hx
      have hb' : (VolatilityEngine.ewmaVolatility returns bullLam
          minVariance).getD i none = some vb := by
        rw [List.getD_eq_getElem?_getD]; exact hb
      have hs' : (VolatilityEngine.garchVolatility fit returns
          minVariance).getD i none = some vs := by
        rw [List.getD_eq_getElem?_getD]; exact hs
      have hc' : (VolatilityEngine.ewmaVolatility returns crisisLam
          minVariance).getD i none = some vc := by
        rw [List.getD_eq_getElem?_getD]; exact hc
      have hfb := (VolatilityEngine.ewmaVolatility_floor returns bullLam
        minVariance 20 i vb hb').1
      have hfs := VolatilityEngine.garchVolatility_floor fit returns
        minVariance i vs hs'
      have hfc := (VolatilityEngine.ewmaVolatility_floor returns crisisLam
        minVariance 20 i vc hc').1
      have hpb' : (0 : ℝ) ≤ (pb : ℝ) := by exact_mod_cast hpb
      have hps' : (0 : ℝ) ≤ (ps : ℝ) := by exact_mod_cast hps
      have hpc' : (0 : ℝ) ≤ (pc : ℝ) := by exact_mod_cast hpc
      have hsum' : (pb : ℝ) + (ps : ℝ) + (pc : ℝ) = 1 := by
        exact_mod_cast hsum
      have t1 := mul_le_mul_of_nonneg_right hfb hpb'
      have t2 := mul_le_mul_of_nonneg_right hfs hps'
      have t3 := mul_le_mul_of_nonneg_right hfc hpc'
      rw [← hx]
      nlinarith [Real.sqrt_nonneg ((minVariance : ℚ) : ℝ)]
    · have hnone : (List.range returns.length)[i]? = none :=
        List.getElem?_eq_none (by simpa using not_lt.1 hi)
      simp only [List.getD_eq_getElem?_getD, List.getElem?_map, hnone] at hx
      exact absurd hx (by simp)

/-- Claim C3, counterexample to the claim as stated: for the one-point
return series `[1]` the single entry of `ewma_volatility` — an index fully
covered by the input — is `NaN` (`none`), because fewer than `min_periods`
(20) observations are available; it is not floored at `sqrt(min_variance)`. -/
theorem claim_C3_counterexample :
    (VolatilityEngine.ewmaVolatility [1] (47 / 50) (1 / 1000000)).length = 1
  ∧ (VolatilityEngine.ewmaVolatility [1] (47 / 50)
      (1 / 1000000)).getD 0 none = none := by
  constructor
  · simp [VolatilityEngine.ewmaVolatility, VolatilityEngine.ewmaVariance,
      VolatilityEngine.ewmaRaw, List.length_scanl]
  · rfl

/-- Claim C3, witness: on twenty zero returns the EWMA variance at index 19
is defined and equals the floor `min_variance = 1e-6`, so the volatility
entry is `sqrt(1e-6) > 0`. -/
theorem claim_C3_witness :
    (1 / 1000000 : ℚ) ≤ 1 / 1000000
  ∧ (VolatilityEngine.ewmaVolatility (List.replicate 20 0) (1 / 2)
      (1 / 1000000) 20).getD 19 none =
      some (Real.sqrt ((1 / 1000000 : ℚ) : ℝ))
  ∧ Real.sqrt ((1 / 1000000 : ℚ) : ℝ) ≤ Real.sqrt ((1 / 1000000 : ℚ) : ℝ)
  ∧ (0 < (1 / 1000000 : ℚ) → 0 < Real.sqrt ((1 / 1000000 : ℚ) : ℝ)) :=
  (claim_C3 (List.replicate 20 0) (1 / 2) (1 / 1000000) 20 19).1
    (1 / 1000000)
    (by norm_num [VolatilityEngine.ewmaVariance, VolatilityEngine.ewmaRaw,
      List.replicate, List.scanl, List.range_succ])

/-- Claim C6: whenever the external GARCH fitting routine fails with any
exception, `garch_volatility` returns exactly the EWMA volatility series
with decay 0.90 (and the EWMA default `min_periods = 20`); no exception
escapes — the function is total on fitting failures. -/
theorem claim_C6 (e : String) (returns : List ℚ) (minVariance : ℚ) :
    VolatilityEngine.garchVolatility (.error e) returns minVariance =
      VolatilityEngine.ewmaVolatility returns (9 / 10) minVariance 20 :=
  rfl

namespace PricingEngine

/-- Modelled external function: `scipy.stats.norm.cdf`, the standard normal
CDF, written as the Gaussian integral over `(-inf, x]` divided by the
normalizing constant `sqrt(2*pi)`. -/
noncomputable def normCdf (x : ℝ) : ℝ :=
  (∫ t in Set.Iic x, Real.exp (-(t ^ 2) / 2)) / Real.sqrt (2 * Real.pi)

/-- `PricingEngine.black_scholes_call`: intrinsic value `max (S-K) 0` for a
degenerate time-to-expiry or volatility, otherwise the closed form.
NumPy's `log` of a non-positive ratio would give `NaN`/`-inf`; `Real.log`
takes a junk value there, which both sides of every theorem below share. -/
noncomputable def blackScholesCall (S K T r sigma : ℝ) : ℝ :=
  if T ≤ 0 ∨ sigma ≤ 0 then max (S - K) 0
  else
    let d1 := (Real.log (S / K) + (r + sigma ^ 2 / 2) * T) /
      (sigma * Real.sqrt T)
    let d2 := d1 - sigma * Real.sqrt T
    S * normCdf d1 - K * Real.exp (-(r * T)) * normCdf d2

/-- One term of the truncated Merton series, for `k` jumps: the Poisson
weight times the Black–Scholes price at the jump-adjusted volatility
`sqrt(sigma^2 + k*sigma_j^2/T)` and drift-compensated rate.  For `T < 0` the
square-root argument can be negative, where NumPy yields a NaN `sigma_k`;
that NaN never reaches the result, because `black_scholes_call` consumes
`sigma_k` only after its `T <= 0` short-circuit to the intrinsic value — so
the junk value `Real.sqrt` takes on negatives is equally discarded and the
term is a plain float in every case with `T /= 0`. -/
noncomputable def mertonTerm (S K T r sigma lam muJ sigmaJ : ℝ) (k : ℕ) :
    ℝ :=
  let poissonWeight :=
    Real.exp (-(lam * T)) * (lam * T) ^ k / (Nat.factorial k : ℝ)
  let sigmaK := Real.sqrt (sigma ^ 2 + ((k : ℝ) * sigmaJ ^ 2) / T)
  let rK := r - lam * (Real.exp (muJ + sigmaJ ^ 2 / 2) - 1) +
    ((k : ℝ) * muJ) / T
  poissonWeight * blackScholesCall S K T rK sigmaK

/-- `PricingEngine.merton_call`: the Poisson-weighted series truncated at
`n_terms`.  With at least one term and `T = 0`, the Python expression
`(k * sigma_j**2) / T` raises `ZeroDivisionError` (float division by zero),
modelled as `Except.error`; otherwise the terms are accumulated from
`price = 0.0`. -/
noncomputable def mertonCall (S K T r sigma lam muJ sigmaJ : ℝ)
    (nTerms : ℕ := 20) : Except Unit ℝ :=
  if T = 0 then
    if nTerms = 0 then .ok 0 else .error ()
  else
    .ok (((List.range nTerms).map
      (mertonTerm S K T r sigma lam muJ sigmaJ)).foldl (· + ·) 0)

lemma foldl_add_eq_sum (l : List ℝ) (a : ℝ) :
    l.foldl (· + ·) a = a + l.sum := by
  induction l generalizing a with
  | nil => simp
  | cons x xs ih => simp [ih, add_assoc]

lemma sum_map_range_eq_head (g : ℕ → ℝ) (n : ℕ) (hn : 1 ≤ n)
    (h0 : ∀ k, 1 ≤ k → g k = 0) : ((List.range n).map g).sum = g 0 := by
  induction n with
  | zero => omega
  | succ m ih =>
    rw [List.range_succ, List.map_append, List.sum_append]
    rcases Nat.eq_or_lt_of_le hn with h | h
    · have : m = 0 := by omega
      subst this
      simp
    · have hm : 1 ≤ m := by omega
      rw [ih hm]
      simp [h0 m hm]

end PricingEngine

/-- Claim C5 (corrected): for every `T ≠ 0` and `sigma ≥ 0`, `merton_call`
with jump intensity `lam = 0` collapses exactly to the Black–Scholes price:
the Poisson weight of the `k = 0` term is 1 and every `k ≥ 1` term has
weight 0 (for `T < 0` both sides short-circuit to the same intrinsic
value).  At `T = 0` the series raises instead of returning the
Black–Scholes value, and for `sigma < 0` the `k = 0` term uses
`sqrt(sigma^2) = |sigma|` while Black–Scholes returns the intrinsic
value. -/
theorem claim_C5 (S K T r sigma muJ sigmaJ : ℝ) (n : ℕ)
    (hT : T ≠ 0) (hsigma : 0 ≤ sigma) (hn : 1 ≤ n) :
    PricingEngine.mertonCall S K T r sigma 0 muJ sigmaJ n =
      .ok (PricingEngine.blackScholesCall S K T r sigma) := by
  unfold PricingEngine.mertonCall
  rw [if_neg hT]
  have hterm : ∀ k, PricingEngine.mertonTerm S K T r sigma 0 muJ sigmaJ k =
      if k = 0 then PricingEngine.blackScholesCall S K T r sigma else 0 := by
    intro k
    unfold PricingEngine.mertonTerm
    rcases Nat.eq_zero_or_pos k with hk | hk
    · subst hk
      simp only [Nat.cast_zero, zero_mul, zero_div, add_zero, if_pos rfl,
        Nat.factorial_zero, Nat.cast_one, pow_zero, neg_zero, sub_zero]
      rw [Real.sqrt_sq hsigma]
      norm_num [Real.exp_zero]
    · have hk0 : k ≠ 0 := by omega
      rw [if_neg hk0]
      simp [zero_pow hk0]
  have hmap : (List.range n).map
        (PricingEngine.mertonTerm S K T r sigma 0 muJ sigmaJ) =
      (List.range n).map
        (fun k => if k = 0 then
          PricingEngine.blackScholesCall S K T r sigma else 0) :=
    List.map_congr_left (fun k _ => hterm k)
  rw [hmap, PricingEngine.foldl_add_eq_sum,
    PricingEngine.sum_map_range_eq_head _ n hn (fun k hk => by
      rw [if_neg (by omega)]), if_pos rfl, zero_add]

/-- Claim C5, counterexample to the claim as stated: at `T = 0` (with
`S = K = 100`, `sigma = 1`, `lam = 0`, default 20 terms) `merton_call`
raises `ZeroDivisionError` — the `(k * sigma_j**2) / T` term divides by
zero — while `black_scholes_call` returns the intrinsic value 0, so the two
are not equal for every `T`. -/
theorem claim_C5_counterexample :
    PricingEngine.mertonCall 100 100 0 0 1 0 0 0 = .error ()
  ∧ PricingEngine.blackScholesCall 100 100 0 0 1 = 0 := by
  constructor
  · unfold PricingEngine.mertonCall
    norm_num
  · unfold PricingEngine.blackScholesCall
    norm_num

/-- Claim C5, witness: the amended equality at the concrete point
`S = K = 100`, `T = 1`, `r = 0`, `sigma = 1/2`, `mu_j = sigma_j = 0`. -/
theorem claim_C5_witness :
    PricingEngine.mertonCall 100 100 1 0 (1 / 2) 0 0 0 20 =
      .ok (PricingEngine.blackScholesCall 100 100 1 0 (1 / 2)) :=
  claim_C5 100 100 1 0 (1 / 2) 0 0 20 (by norm_num) (by norm_num)
    (by norm_num)

namespace DecisionStage

/-- The smooth confidence map of `main.py`:
`sigmoid(x, k=5) = 1 / (1 + exp(-k * (x - 0.5)))`. -/
noncomputable def sigmoid (x : ℝ) (k : ℝ := 5) : ℝ :=
  1 / (1 + Real.exp (-k * (x - 1 / 2)))

/-- The confidence computed by the decision stage:
`raw_bias = min(1, |mispricing| / buy_threshold)` followed by the sigmoid
with its default steepness `k = 5`. -/
noncomputable def confidenceOf (mispricing buyThreshold : ℝ) : ℝ :=
  sigmoid (min 1 (|mispricing| / buyThreshold))

/-- The three possible final verdicts of the pipeline. -/
inductive Verdict where
  | BUY
  | SELL
  | REFUSE
deriving DecidableEq

/-- The final-verdict logic of `main.py`: start from REFUSE; only when none
of the four refusal conditions hold (zero mispricing, confidence at or below
`min_confidence`, position magnitude below `min_position`, crisis
probability above 0.5 without `allow_crisis_trades`) does the verdict become
BUY for negative mispricing or SELL for positive mispricing. -/
noncomputable def verdictOf (mispricing confidence position crisisP
    minConf minPos : ℝ) (allowCrisis : Bool) : Verdict :=
  if ¬(mispricing = 0 ∨ confidence ≤ minConf ∨ |position| < minPos ∨
      (crisisP > 1 / 2 ∧ allowCrisis = false)) then
    if mispricing < 0 then .BUY
    else if mispricing > 0 then .SELL
    else .REFUSE
  else .REFUSE

end DecisionStage

/-- Claim C4: the decision stage refuses unless all four gates hold
(`mispricing ≠ 0`, `confidence > min_confidence`,
`|position| ≥ min_position`, `crisis ≤ 0.5` or crisis trading allowed); when
they all hold the verdict is BUY exactly for negative mispricing and SELL
exactly for positive mispricing; and `confidence ≤ min_confidence` always
forces REFUSE. -/
theorem claim_C4 (m c p cr mc mp : ℝ) (a : Bool) :
    (DecisionStage.verdictOf m c p cr mc mp a = .BUY ↔
      (m ≠ 0 ∧ mc < c ∧ mp ≤ |p| ∧ (cr ≤ 1 / 2 ∨ a = true) ∧ m < 0))
  ∧ (DecisionStage.verdictOf m c p cr mc mp a = .SELL ↔
      (m ≠ 0 ∧ mc < c ∧ mp ≤ |p| ∧ (cr ≤ 1 / 2 ∨ a = true) ∧ 0 < m))
  ∧ (DecisionStage.verdictOf m c p cr mc mp a = .REFUSE ↔
      ¬(m ≠ 0 ∧ mc < c ∧ mp ≤ |p| ∧ (cr ≤ 1 / 2 ∨ a = true)))
  ∧ (c ≤ mc → DecisionStage.verdictOf m c p cr mc mp a = .REFUSE) := by
  by_cases hgate : m = 0 ∨ c ≤ mc ∨ |p| < mp ∨ (cr > 1 / 2 ∧ a = false)
  · have hv : DecisionStage.verdictOf m c p cr mc mp a = .REFUSE := by
      unfold DecisionStage.verdictOf
      rw [if_neg (not_not_intro hgate)]
    have hng : ¬(m ≠ 0 ∧ mc < c ∧ mp ≤ |p| ∧ (cr ≤ 1 / 2 ∨ a = true)) := by
      rintro ⟨h1, h2, h3, h4⟩
      rcases hgate with h | h | h | ⟨h5, h6⟩
      · exact h1 h
      · exact absurd h2 (not_lt.2 h)
      · exact absurd h3 (not_le.2 h)
      · rcases h4 with h4 | h4
        · exact absurd h5 (not_lt.2 h4)
        · rw [h4] at h6
          exact absurd h6 (by simp)
    refine ⟨?_, ?_, ?_, fun _ => hv⟩
    · rw [hv]
      constructor
      · intro h
        exact absurd h (by decide)
      · rintro ⟨h1, h2, h3, h4, _⟩
        exact absurd ⟨h1, h2, h3, h4⟩ hng
    · rw [hv]
      constructor
      · intro h
        exact absurd h (by decide)
      · rintro ⟨h1, h2, h3, h4, _⟩
        exact absurd ⟨h1, h2, h3, h4⟩ hng
    · rw [hv]
      exact iff_of_true rfl hng
  · push_neg at hgate
    obtain ⟨h1, h2, h3, h4⟩ := hgate
    have h4' : cr ≤ 1 / 2 ∨ a = true := by
      by_cases hcr : cr ≤ 1 / 2
      · exact Or.inl hcr
      · exact Or.inr (Bool.ne_false_iff.mp (h4 (not_le.1 hcr)))
    have hv : DecisionStage.verdictOf m c p cr mc mp a =
        (if m < 0 then .BUY else if m > 0 then .SELL else .REFUSE) := by
      unfold DecisionStage.verdictOf
      rw [if_pos]
      push_neg
      exact ⟨h1, h2, h3, h4⟩
    rcases lt_trichotomy m 0 with hm | hm | hm
    · rw [hv, if_pos hm]
      refine ⟨iff_of_true rfl ⟨h1, h2, h3, h4', hm⟩, ?_, ?_, ?_⟩
      · constructor
        · intro h
          exact absurd h (by decide)
        · rintro ⟨_, _, _, _, hm2⟩
          linarith
      · constructor
        · intro h
          exact absurd h (by decide)
        · intro hng
          exact absurd ⟨h1, h2, h3, h4'⟩ hng
      · intro hc
        exact absurd h2 (not_lt.2 hc)
    · exact absurd hm h1
    · rw [hv, if_neg (by linarith), if_pos hm]
      refine ⟨?_, iff_of_true rfl ⟨h1, h2, h3, h4', hm⟩, ?_, ?_⟩
      · constructor
        · intro h
          exact absurd h (by decide)
        · rintro ⟨_, _, _, _, hm2⟩
          linarith
      · constructor
        · intro h
          exact absurd h (by decide)
        · intro hng
          exact absurd ⟨h1, h2, h3, h4'⟩ hng
      · intro hc
        exact absurd h2 (not_lt.2 hc)

/-- Claim C4, witness: with confidence 0 at or below `min_confidence = 1/2`,
the verdict is REFUSE even though the mispricing is non-zero and every other
gate would pass. -/
theorem claim_C4_witness :
    DecisionStage.verdictOf (-1) 0 1 0 (1 / 2) (1 / 100) true = .REFUSE :=
  (claim_C4 (-1) 0 1 0 (1 / 2) (1 / 100) true).2.2.2 (by norm_num)

/-- Claim C8: for a fixed positive `buy_threshold` (and the source's fixed
sigmoid steepness 5), the confidence `sigmoid(min(1, |m|/threshold))` is
non-decreasing in `|mispricing|`. -/
theorem claim_C8 (buyThreshold m1 m2 : ℝ) (hthr : 0 < buyThreshold)
    (h : |m1| ≤ |m2|) :
    DecisionStage.confidenceOf m1 buyThreshold ≤
      DecisionStage.confidenceOf m2 buyThreshold := by
  unfold DecisionStage.confidenceOf DecisionStage.sigmoid
  have hdiv : |m1| / buyThreshold ≤ |m2| / buyThreshold := by gcongr
  have hx : min 1 (|m1| / buyThreshold) ≤ min 1 (|m2| / buyThreshold) :=
    min_le_min le_rfl hdiv
  have hexp : Real.exp (-5 * (min 1 (|m2| / buyThreshold) - 1 / 2)) ≤
      Real.exp (-5 * (min 1 (|m1| / buyThreshold) - 1 / 2)) :=
    Real.exp_le_exp.2 (by linarith)
  have hpos : 0 < 1 + Real.exp (-5 * (min 1 (|m2| / buyThreshold) - 1 / 2)) := by
    positivity
  exact one_div_le_one_div_of_le hpos (by linarith)

/-- Claim C8, witness: mispricings 0 and 1 at threshold 1. -/
theorem claim_C8_witness :
    DecisionStage.confidenceOf 0 1 ≤ DecisionStage.confidenceOf 1 1 :=
  claim_C8 1 0 1 (by norm_num) (by norm_num)

namespace DriftEngine

/-- `DriftEngine.update_regime_parameters`: sets the Kalman process noise
`Q = state_noise_factor * q_mult` where `q_mult` is 1 for bull, 3 for
sideways, 10 for crisis — and, in the source's final `else` branch, silently
1 again for any other label.  When `adaptive` is set it also sets the
observation noise `R = max(volatility^2, min_obs_variance)`, doubled under
crisis; otherwise `R` is left unchanged (`none`).  The function is total: no
branch raises. -/
def updateRegimeParameters (regime : String)
    (volatility stateNoiseFactor minObsVariance : ℚ) (adaptive : Bool) :
    ℚ × Option ℚ :=
  let qMult : ℚ :=
    if regime = "bull" then 1
    else if regime = "sideways" then 3
    else if regime = "crisis" then 10
    else 1
  let newQ := stateNoiseFactor * qMult
  let newR : Option ℚ :=
    if adaptive then
      let rVal := max (volatility ^ 2) minObsVariance
      some (if regime = "crisis" then rVal * 2 else rVal)
    else none
  (newQ, newR)

end DriftEngine

/-- Claim C9 (corrected): for any regime label outside
`{bull, sideways, crisis}`, `VolatilityEngine.estimate_regime_volatility`
raises a `ValueError` (modelled `Except.error`), but
`DriftEngine.update_regime_parameters` does NOT raise — its final `else`
silently reuses the bull multiplier `q_mult = 1.0`, so it behaves exactly as
for the `bull` label. -/
theorem claim_C9 (regime : String) (hb : regime ≠ "bull")
    (hs : regime ≠ "sideways") (hc : regime ≠ "crisis") :
    (∀ (returns : List ℚ) (fit : Except String (List ℝ))
        (bullLam crisisLam minVariance : ℚ),
      VolatilityEngine.estimateRegimeVolatility returns regime fit bullLam
        crisisLam minVariance = .error ("Unknown regime: " ++ regime))
  ∧ (∀ (volatility stateNoiseFactor minObsVariance : ℚ) (adaptive : Bool),
      DriftEngine.updateRegimeParameters regime volatility stateNoiseFactor
          minObsVariance adaptive =
        DriftEngine.updateRegimeParameters "bull" volatility
          stateNoiseFactor minObsVariance adaptive) := by
  constructor
  · intro returns fit bullLam crisisLam minVariance
    unfold VolatilityEngine.estimateRegimeVolatility
    rw [if_neg hb, if_neg hs, if_neg hc]
  · intro volatility stateNoiseFactor minObsVariance adaptive
    simp [DriftEngine.updateRegimeParameters, hb, hs, hc]

/-- Claim C9, counterexample to the claim as stated: on the unrecognized
label "garbage" the drift engine's parameter update returns a normal result
(the bull-regime behaviour) instead of raising: with
`state_noise_factor = 1`, `min_obs_variance = 1/1000000`, volatility `1/10`
and adaptive noise on, it returns `Q = 1` and `R = max(1/100, 1/1000000)
= 1/100`. -/
theorem claim_C9_counterexample :
    DriftEngine.updateRegimeParameters "garbage" (1 / 10) 1 (1 / 1000000)
      true = (1, some (1 / 100)) := by
  simp [DriftEngine.updateRegimeParameters]
  rw [max_eq_left (by norm_num)]
  norm_num

/-- Claim C9, witness: both halves of the corrected claim at the concrete
label "hold". -/
theorem claim_C9_witness :
    VolatilityEngine.estimateRegimeVolatility [] "hold" (.error "x") (47 / 50)
        (17 / 20) (1 / 1000000) = .error ("Unknown regime: " ++ "hold")
  ∧ DriftEngine.updateRegimeParameters "hold" (1 / 10) 1 (1 / 1000000)
        true =
      DriftEngine.updateRegimeParameters "bull" (1 / 10) 1 (1 / 1000000)
        true :=
  ⟨(claim_C9 "hold" (by decide) (by decide) (by decide)).1 [] (.error "x")
      (47 / 50) (17 / 20) (1 / 1000000),
    (claim_C9 "hold" (by decide) (by decide) (by decide)).2 (1 / 10) 1
      (1 / 1000000) true⟩
